import Mathlib

/-!
Verification of the message-decoding and attachment-chunking core of a small
IMAP tool server (`mcp_imap_server/imap.py`).  The Python functions
`iter_attachment_parts`, `get_attachment_bytes`, `extract_bodies`,
`list_attachments`, `_decode_mime_words` and `_format_address` are embedded
shallowly below, and the frozen specification claims are settled against the
embedding.
-/

deriving instance DecidableEq for Except

namespace Imap

/-- A decoded byte string: each element is one byte value `0..255`. -/
abbrev ByteStr := List Nat

/-- Model of Python `bytes.decode(codec, errors="replace")` for a known codec:
total, never fails.  It is exact on ASCII bytes and replaces every non-ASCII
byte with U+FFFD; this abstracts multi-byte decoding in a way that is faithful
for the ASCII payloads all concrete inputs below use. -/
def decodeReplace (b : ByteStr) : String :=
  String.mk (b.map fun n => if n < 128 then Char.ofNat n else Char.ofNat 0xFFFD)

/-- Model of strict Python `bytes.decode()` (UTF-8, no `errors` argument):
succeeds exactly on ASCII input (a conservative model of strict UTF-8,
exact on the ASCII values used here); a non-ASCII byte models a
`UnicodeDecodeError`. -/
def decodeStrict (b : ByteStr) : Except Unit String :=
  if b.all fun n => n < 128 then .ok (String.mk (b.map fun n => Char.ofNat n))
  else .error ()

/-- The ASCII bytes of a string (used to build concrete byte payloads). -/
def asciiBytes (s : String) : ByteStr := s.data.map Char.toNat

/-- ASCII lower-casing of one character. -/
def charLower (c : Char) : Char :=
  if 65 ≤ c.toNat ∧ c.toNat ≤ 90 then Char.ofNat (c.toNat + 32) else c

/-- Model of Python `str.lower()`, exact on ASCII (the disposition values and
charset tokens it is applied to are ASCII tokens). -/
def strLower (s : String) : String := String.mk (s.data.map charLower)

/-- A node of the parsed RFC822 message tree (a Python
`email.message.Message` under `policy.default`).

A `leaf` carries the result of `get_payload(decode=True)` (`none` models the
Python value `None`) and the result of `get_content()` (`Except.error` models
that call raising, which triggers the source's fallback path).  A `multi`
node is a container whose payload is its list of sub-parts; on such a node
`get_payload(decode=True)` returns `None` and `get_content()` raises. -/
inductive MsgPart where
  | leaf (content_type : String) (disposition : Option String)
      (filename : Option String) (payload : Option ByteStr)
      (content : Except Unit String)
  | multi (content_type : String) (disposition : Option String)
      (filename : Option String) (parts : List MsgPart)

/-- Python `part.get_content_type()`. -/
def MsgPart.get_content_type : MsgPart → String
  | .leaf ct _ _ _ _ => ct
  | .multi ct _ _ _ => ct

/-- Python `part.get_content_disposition()` (already lowercased by the email
library; the source lowercases again, which we also model at the call site). -/
def MsgPart.get_content_disposition : MsgPart → Option String
  | .leaf _ d _ _ _ => d
  | .multi _ d _ _ => d

/-- Python `part.get_filename()`. -/
def MsgPart.get_filename : MsgPart → Option String
  | .leaf _ _ f _ _ => f
  | .multi _ _ f _ => f

/-- Python `msg.is_multipart()`. -/
def MsgPart.is_multipart : MsgPart → Bool
  | .leaf _ _ _ _ _ => false
  | .multi _ _ _ _ => true

/-- Python `part.get_payload(decode=True) or b""`: the decoded payload of a
leaf part (with `None` replaced by the empty byte string); a multipart node
has decoded payload `None`, hence the empty byte string. -/
def MsgPart.payloadOrEmpty : MsgPart → ByteStr
  | .leaf _ _ _ p _ => p.getD []
  | .multi _ _ _ _ => []

/-- The source idiom
`try: x = part.get_content() or "" except Exception: x = (part.get_payload(decode=True) or b"").decode("utf-8", errors="replace")`.
On a string `s`, `s or ""` equals `s`.  On a multipart node `get_content()`
raises and the fallback decodes the empty byte string. -/
def MsgPart.contentOrFallback : MsgPart → String
  | .leaf _ _ _ p c =>
    match c with
    | .ok s => s
    | .error _ => decodeReplace (p.getD [])
  | .multi _ _ _ _ => ""

mutual

/-- Python `msg.walk()`: the node itself, then (for a multipart) every
sub-part recursively, depth-first in document order. -/
def walk : MsgPart → List MsgPart
  | p@(.leaf _ _ _ _ _) => [p]
  | p@(.multi _ _ _ ps) => p :: walkList ps

/-- The function `walk` mapped over a list of sibling parts, concatenated in order. -/
def walkList : List MsgPart → List MsgPart
  | [] => []
  | p :: ps => walk p ++ walkList ps

end

/-- Python truthiness of a `get_filename()` result: `None` and `""` are
falsy, every other string is truthy. -/
def filenameTruthy : Option String → Bool
  | none => false
  | some s => decide (s ≠ "")

/-- Source `iter_attachment_parts`: yield, in walk order, every part
whose `get_filename()` is truthy. -/
def iter_attachment_parts (msg : MsgPart) : List MsgPart :=
  (walk msg).filter fun p => filenameTruthy p.get_filename

/-- The distinct `ValueError`s raised by `get_attachment_bytes`, one
constructor per `raise` site of the source. -/
inductive AttachmentError where
  | noAttachments
  | filenameNotFound (filename : String)
  | indexOutOfRange (attachment_index : Int) (count : Nat)
  | negativeOffset
  | offsetOutOfRange (offset_bytes : Int) (size : Nat)
deriving DecidableEq, Repr

/-- Model of Python `repr` on the simple (quote- and backslash-free) strings
used for filenames here: the string wrapped in single quotes. -/
def pyRepr (s : String) : String := "\x27" ++ s ++ "\x27"

/-- The exact message string each `raise ValueError(...)` of the source
carries. -/
def AttachmentError.message : AttachmentError → String
  | .noAttachments => "Message has no attachments"
  | .filenameNotFound fn => "No attachment found with filename " ++ pyRepr fn
  | .indexOutOfRange i n =>
      "attachment_index out of range: " ++ toString i ++ " (have " ++
        toString n ++ " attachments)"
  | .negativeOffset => "offset_bytes must be >= 0"
  | .offsetOutOfRange off size =>
      "offset_bytes out of range: " ++ toString off ++ " (attachment size is " ++
        toString size ++ ")"

/-- The `for i, part in enumerate(parts): if part.get_filename() == filename:
... break` loop of the source: first part (with its index, counting from `i0`)
whose filename equals the requested one.  Python compares
`get_filename() == filename` where the right side is a `str`, so a part with
`get_filename() is None` never matches. -/
def findByFilename (fn : String) : List MsgPart → Nat → Option (MsgPart × Nat)
  | [], _ => none
  | p :: rest, i =>
    if p.get_filename = some fn then some (p, i) else findByFilename fn rest (i + 1)

/-- The selection phase of `get_attachment_bytes` (source lines 164-185):
raise on an empty attachment list, otherwise select by exact filename when one
is given, else by bounds-checked index. -/
def selectAttachment (msg : MsgPart) (attachment_index : Int)
    (filename : Option String) : Except AttachmentError (MsgPart × Nat) :=
  let parts := iter_attachment_parts msg
  if parts.isEmpty then .error .noAttachments
  else
    match filename with
    | some fn =>
      match findByFilename fn parts 0 with
      | some sel => .ok sel
      | none => .error (.filenameNotFound fn)
    | none =>
      if h : 0 ≤ attachment_index ∧ attachment_index.toNat < parts.length then
        .ok (parts.get ⟨attachment_index.toNat, h.2⟩, attachment_index.toNat)
      else .error (.indexOutOfRange attachment_index parts.length)

/-- The record returned by `get_attachment_bytes`. -/
structure AttachmentChunk where
  index : Int
  filename : Option String
  content_type : String
  size_bytes : Nat
  offset_bytes : Int
  returned_bytes : Nat
  truncated : Bool
  next_offset_bytes : Int
  done : Bool
  content_bytes : ByteStr
deriving DecidableEq, Repr

/-- The chunking phase of `get_attachment_bytes` (source lines 187-217) on an
already selected part: decode the payload, validate the offset, slice, apply
the `max_bytes` cap (`if max_bytes and max_bytes > 0 and len(payload) >
max_bytes`), and assemble the result record.  `int(selected_index or 0)`
equals the selected index, since that variable is always an assigned `int`
here. -/
def chunkFromPart (p : MsgPart) (idx : Nat) (offset_bytes : Int)
    (max_bytes : Int) : Except AttachmentError AttachmentChunk :=
  let payload_all := p.payloadOrEmpty
  let original_size := payload_all.length
  if offset_bytes < 0 then .error .negativeOffset
  else if (original_size : Int) < offset_bytes then
    .error (.offsetOutOfRange offset_bytes original_size)
  else
    let payload0 := payload_all.drop offset_bytes.toNat
    let truncated := decide (0 < max_bytes ∧ (max_bytes : Int) < payload0.length)
    let payload := if truncated then payload0.take max_bytes.toNat else payload0
    let next_offset : Int := offset_bytes + payload.length
    .ok
      { index := (idx : Int)
        filename := p.get_filename
        content_type := p.get_content_type
        size_bytes := original_size
        offset_bytes := offset_bytes
        returned_bytes := payload.length
        truncated := truncated
        next_offset_bytes := next_offset
        done := decide ((original_size : Int) ≤ next_offset)
        content_bytes := payload }

/-- Source `get_attachment_bytes`: selection followed by chunking. -/
def get_attachment_bytes (msg : MsgPart) (attachment_index : Int)
    (filename : Option String) (offset_bytes : Int) (max_bytes : Int) :
    Except AttachmentError AttachmentChunk := do
  let sel ← selectAttachment msg attachment_index filename
  chunkFromPart sel.1 sel.2 offset_bytes max_bytes

/-- One entry of the `list_attachments` result. -/
structure AttachmentDescriptor where
  filename : Option String
  content_type : String
  size_bytes : Nat
deriving DecidableEq, Repr

/-- Source `list_attachments`: one descriptor per filename-bearing
part, in the `iter_attachment_parts` order. -/
def list_attachments (msg : MsgPart) : List AttachmentDescriptor :=
  (iter_attachment_parts msg).map fun p =>
    { filename := p.get_filename
      content_type := p.get_content_type
      size_bytes := p.payloadOrEmpty.length }

/-- The body-truncation step of `extract_bodies` (source lines 259-263),
applied to one candidate string:
`if max_chars > 0: if s and len(s) > max_chars: s = s[:max_chars] + "\n\n[truncated]"`. -/
def truncateBody (max_chars : Int) (s : String) : String :=
  if 0 < max_chars ∧ s ≠ "" ∧ (max_chars : Int) < s.length then
    s.take max_chars.toNat ++ "\n\n[truncated]"
  else s

/-- The multipart traversal loop of `extract_bodies` (source lines 225-243),
with the two accumulators `text` and `html` (Python truthiness: `not text`
is `text = ""`).  A part whose lowercased disposition is `attachment` or
`inline` and whose filename is truthy is skipped; the early `break` fires
once both accumulators are nonempty. -/
def bodiesLoop : List MsgPart → String → String → String × String
  | [], text, html => (text, html)
  | p :: rest, text, html =>
    let disp := strLower (p.get_content_disposition.getD "")
    if (disp = "attachment" ∨ disp = "inline") ∧ filenameTruthy p.get_filename then
      bodiesLoop rest text html
    else
      let text1 :=
        if p.get_content_type = "text/plain" ∧ text = "" then p.contentOrFallback
        else text
      let html1 :=
        if p.get_content_type = "text/html" ∧ html = "" then p.contentOrFallback
        else html
      if text1 ≠ "" ∧ html1 ≠ "" then (text1, html1)
      else bodiesLoop rest text1 html1

/-- The body-selection phase of `extract_bodies` (before truncation): the
multipart branch runs the walk loop; the single-part branch applies the same
content extraction to the root alone, keyed only on its content type. -/
def extract_bodies_raw (msg : MsgPart) : String × String :=
  if msg.is_multipart then bodiesLoop (walk msg) "" ""
  else
    let ctype := msg.get_content_type
    if ctype = "text/plain" then (msg.contentOrFallback, "")
    else if ctype = "text/html" then ("", msg.contentOrFallback)
    else ("", "")

/-- The `{"text": ..., "html": ...}` record returned by `extract_bodies`. -/
structure BodyResult where
  text : String
  html : String
deriving DecidableEq, Repr

/-- Source `extract_bodies`: select the bodies, then truncate each
field independently under the character cap. -/
def extract_bodies (msg : MsgPart) (max_chars : Int) : BodyResult :=
  let raw := extract_bodies_raw msg
  { text := truncateBody max_chars raw.1
    html := truncateBody max_chars raw.2 }

/-- A chunk of the list returned by the standard library's
`email.header.decode_header`: either an unencoded `str` chunk, or the
transfer-decoded bytes of one encoded word tagged with its charset token. -/
inductive HeaderChunk where
  | text (s : String)
  | bytes (b : ByteStr) (charset : Option String)

/-- Modelled from the Python standard library (`email.header`, not repository
code): recognize a string that is exactly one RFC 2047 Q-encoded word
`=?charset?q?text?=` and return its charset token and payload text.  The
model is restricted to payloads free of the Q escapes `_` and `=XX`, on which
Q-decoding is the identity; the charset token is any `?`-free string, taken
verbatim and unvalidated, exactly as the library's regular expression does.
Splitting the character list on `?` turns `=?charset?q?text?=` into exactly
the five groups `=`, `charset`, `q`, `text`, `=`. -/
def splitOnQmark : List Char → List (List Char)
  | [] => [[]]
  | x :: xs =>
    match splitOnQmark xs with
    | [] => [[]]
    | g :: gs => if x = '?' then [] :: g :: gs else (x :: g) :: gs

/-- Recognize a whole-string Q-encoded word (see `splitOnQmark`), returning
its charset token and payload text. -/
def parseEncodedWord (s : String) : Option (String × String) :=
  match splitOnQmark s.data with
  | [a, cs, enc, txt, b] =>
    if a = ['='] ∧ b = ['='] ∧ (enc = ['q'] ∨ enc = ['Q']) then
      some (String.mk cs, String.mk txt)
    else none
  | _ => none

/-- Modelled from the Python standard library: `email.header.decode_header`,
restricted to inputs that are either one whole encoded word (one tagged bytes
chunk) or free of encoded words (one untagged `str` chunk). -/
def decode_header (s : String) : List HeaderChunk :=
  match parseEncodedWord s with
  | some (cs, txt) => [.bytes (asciiBytes txt) (some cs)]
  | none => [.text s]

/-- A finite model of Python's codec registry, lower-cased: `bytes.decode`
with a name outside this list raises `LookupError` regardless of any
`errors=...` argument. -/
def knownCodecs : List String :=
  ["utf-8", "utf8", "ascii", "us-ascii", "latin-1", "latin1", "iso-8859-1",
    "utf-16", "utf-32"]

/-- Python `chunk.decode(enc, errors="replace")`: raises (`LookupError`) when
the codec name is unknown — `errors="replace"` does not guard codec lookup —
and otherwise decodes totally with replacement. -/
def bytesDecodeTagged (enc : String) (b : ByteStr) : Except Unit String :=
  if knownCodecs.any fun c => c = strLower enc then .ok (decodeReplace b)
  else .error ()

/-- The `for chunk, encoding in decode_header(value)` loop of the source:
decode each bytes chunk with its tagged codec (default `"utf-8"`), keep each
`str` chunk as is, and concatenate; the first raising decode aborts the
call. -/
def decodeChunks : List HeaderChunk → Except Unit String
  | [] => .ok ""
  | c :: rest => do
    let s ←
      match c with
      | .bytes b enc => bytesDecodeTagged (enc.getD "utf-8") b
      | .text s => pure s
    let r ← decodeChunks rest
    pure (s ++ r)

/-- A header value as the callers hand it over: absent, textual, or binary. -/
inductive HeaderValue where
  | none
  | str (s : String)
  | bytes (b : ByteStr)

/-- Source `_decode_mime_words`.  `None` yields `""`; a `str` is
returned unchanged; bytes are first decoded as UTF-8 with replacement (the
surrounding `try`/`except` is dead code, since `errors="replace"` on the
built-in UTF-8 codec cannot raise) and then run through the encoded-word
loop, whose per-chunk codec lookup can raise. -/
def _decode_mime_words : HeaderValue → Except Unit String
  | .none => .ok ""
  | .str s => .ok s
  | .bytes b => decodeChunks (decode_header (decodeReplace b))

/-- A field of an envelope address as IMAPClient hands it over: absent,
textual, or binary. -/
inductive FieldVal where
  | none
  | str (s : String)
  | bytes (b : ByteStr)

/-- Python truthiness of an address field: `None`, `""` and `b""` are falsy. -/
def FieldVal.truthy : FieldVal → Bool
  | .none => false
  | .str s => decide (s ≠ "")
  | .bytes b => decide (b ≠ [])

/-- Python `x.decode() if isinstance(x, (bytes, bytearray)) else str(x)`: strict
UTF-8 decoding for binary fields (which can raise `UnicodeDecodeError`),
`str` conversion otherwise.  The source only evaluates this on truthy
fields, so the `str(None)` branch is unreachable there. -/
def FieldVal.pyStr : FieldVal → Except Unit String
  | .none => .ok "None"
  | .str s => .ok s
  | .bytes b => decodeStrict b

/-- Python `name.decode(errors="replace") if isinstance(name, (bytes, bytearray))
else str(name)`: total. -/
def FieldVal.pyStrReplace : FieldVal → String
  | .none => "None"
  | .str s => s
  | .bytes b => decodeReplace b

/-- An IMAPClient envelope `Address`-like record: the three fields the source
reads via `getattr`. -/
structure EnvelopeAddress where
  name : FieldVal
  mailbox : FieldVal
  host : FieldVal

/-- Source `_format_address`: `None` yields `""`; otherwise compose
`mailbox@host` when both those fields are truthy (strict-decoding binary
values), render a truthy name with replacement decoding, and combine as
`"name <email>"`, `email`, `name`, or `""` (the source's
`return email_addr or display`). -/
def _format_address : Option EnvelopeAddress → Except Unit String
  | Option.none => .ok ""
  | Option.some a =>
    let emailE : Except Unit String :=
      if a.mailbox.truthy ∧ a.host.truthy then
        match a.mailbox.pyStr with
        | .error e => .error e
        | .ok mb =>
          match a.host.pyStr with
          | .error e => .error e
          | .ok hs => .ok (mb ++ "@" ++ hs)
      else .ok ""
    match emailE with
    | .error e => .error e
    | .ok email_addr =>
      let display := if a.name.truthy then a.name.pyStrReplace else ""
      if display ≠ "" ∧ email_addr ≠ "" then
        .ok (display ++ " <" ++ email_addr ++ ">")
      else .ok (if email_addr ≠ "" then email_addr else display)

/-- Spec-side helper: the first nonempty string of a list, or `""`. -/
def firstNonempty : List String → String
  | [] => ""
  | s :: rest => if s = "" then firstNonempty rest else s

/-- Spec-side helper (from the claim's words): a part is eligible as a body
candidate unless its disposition is `attachment` or `inline` and it carries a
filename. -/
def bodyEligible (p : MsgPart) : Bool :=
  let disp := strLower (p.get_content_disposition.getD "")
  !(decide (disp = "attachment" ∨ disp = "inline") && filenameTruthy p.get_filename)

/-- Spec-side helper: the extracted contents of the eligible parts of the
given content type, in list order. -/
def bodyCandidates (ctype : String) (parts : List MsgPart) : List String :=
  (parts.filter fun p =>
    bodyEligible p && decide (p.get_content_type = ctype)).map
    MsgPart.contentOrFallback

/-- Spec-side helper (from the claim's words): whether an attachment error is
the "offset out of range" one, i.e. its message mentions being out of
range. -/
abbrev mentionsOutOfRange (e : AttachmentError) : Prop :=
  "out of range".data <:+: e.message.data

/-- Spec-side helper: the number of occurrences of a character in a string. -/
def countChar (s : String) (c : Char) : Nat := s.data.count c

/-! ### Concrete fixture messages used by witnesses and counterexamples -/

/-- A five-byte attachment part named `a.txt`. -/
def attW : MsgPart :=
  .leaf "text/plain" (some "attachment") (some "a.txt")
    (some (asciiBytes "hello")) (.error ())

/-- A plain-text body part. -/
def bodyW : MsgPart := .leaf "text/plain" none none (some (asciiBytes "Hello")) (.ok "Hello")

/-- An HTML body part. -/
def htmlW : MsgPart :=
  .leaf "text/html" none none (some (asciiBytes "<p>Hi</p>")) (.ok "<p>Hi</p>")

/-- A multipart message with one text body, one HTML body and one attachment. -/
def mmW : MsgPart := .multi "multipart/mixed" none none [bodyW, htmlW, attW]

/-! ### Helper lemmas -/

/-- The call `get_attachment_bytes` is the selection phase followed by the chunking
phase. -/
theorem get_attachment_bytes_eq (msg : MsgPart) (idx : Int) (fn : Option String)
    (off mx : Int) :
    get_attachment_bytes msg idx fn off mx =
      match selectAttachment msg idx fn with
      | .error e => .error e
      | .ok sel => chunkFromPart sel.1 sel.2 off mx := by
  unfold get_attachment_bytes
  cases selectAttachment msg idx fn <;> rfl

/-- Full characterization of a successful chunking phase: the offset was
valid, and the returned record satisfies the pagination equations. -/
theorem chunkFromPart_ok (p : MsgPart) (idx : Nat) (off mx : Int)
    (c : AttachmentChunk) (h : chunkFromPart p idx off mx = .ok c) :
    c.index = (idx : Int) ∧ c.filename = p.get_filename ∧
    c.content_type = p.get_content_type ∧
    c.size_bytes = p.payloadOrEmpty.length ∧ c.offset_bytes = off ∧
    0 ≤ off ∧ off ≤ (p.payloadOrEmpty.length : Int) ∧
    c.next_offset_bytes = c.offset_bytes + c.returned_bytes ∧
    (c.done = true ↔ (c.size_bytes : Int) ≤ c.next_offset_bytes) ∧
    (c.truncated = true ↔
      (c.returned_bytes : Int) < (c.size_bytes : Int) - c.offset_bytes) := by
  unfold chunkFromPart at h
  by_cases h1 : off < 0
  · simp [h1] at h
  · by_cases h2 : ((p.payloadOrEmpty.length : Int) < off)
    · simp [h1, h2] at h
    · simp only [h1, h2, if_false, if_neg, ite_false] at h
      have hc := (Except.ok.injEq _ _).mp h
      subst hc
      dsimp only
      have hoff : ((off.toNat : Nat) : Int) = off :=
        Int.toNat_of_nonneg (not_lt.mp h1)
      have hdrop : (p.payloadOrEmpty.drop off.toNat).length =
          p.payloadOrEmpty.length - off.toNat := List.length_drop _ _
      refine ⟨rfl, rfl, rfl, rfl, rfl, not_lt.mp h1, not_lt.mp h2, rfl, ?_, ?_⟩
      · simp only [decide_eq_true_eq]
      · by_cases htr : 0 < mx ∧ (mx : Int) < ((p.payloadOrEmpty.drop off.toNat).length : Int)
        · rw [decide_eq_true htr]
          rw [hdrop] at htr
          simp only [if_true, ite_true, List.length_take, hdrop, true_iff]
          omega
        · rw [decide_eq_false htr]
          rw [hdrop] at htr
          simp only [if_false, ite_false, hdrop, Bool.false_eq_true, false_iff, not_lt]
          omega

/-! ### Claim C1 -/

/-- C1: for every parsed message, attachment selector, valid offset and
`max_bytes`, the `AttachmentChunk` returned by `get_attachment_bytes`
satisfies `next_offset_bytes = offset_bytes + returned_bytes`,
`done = (next_offset_bytes >= size_bytes)`, and `truncated` is true exactly
when the requested slice — the `size_bytes - offset_bytes` bytes from
`offset_bytes` to the end of the decoded payload — is longer than
`returned_bytes`. -/
theorem c1_chunk_pagination (msg : MsgPart) (idx : Int) (fn : Option String)
    (off mx : Int) (c : AttachmentChunk)
    (h : get_attachment_bytes msg idx fn off mx = .ok c) :
    c.next_offset_bytes = c.offset_bytes + c.returned_bytes ∧
    (c.done = true ↔ (c.size_bytes : Int) ≤ c.next_offset_bytes) ∧
    (c.truncated = true ↔
      (c.returned_bytes : Int) < (c.size_bytes : Int) - c.offset_bytes) := by
  rw [get_attachment_bytes_eq] at h
  cases hsel : selectAttachment msg idx fn with
  | error e => rw [hsel] at h; cases h
  | ok sel =>
    rw [hsel] at h
    obtain ⟨-, -, -, -, -, -, -, h8, h9, h10⟩ :=
      chunkFromPart_ok sel.1 sel.2 off mx c h
    exact ⟨h8, h9, h10⟩

/-- The chunk a truncated read at offset 1 with cap 2 returns on `mmW`. -/
def chunkW : AttachmentChunk :=
  { index := 0, filename := some "a.txt", content_type := "text/plain",
    size_bytes := 5, offset_bytes := 1, returned_bytes := 2,
    truncated := true, next_offset_bytes := 3, done := false,
    content_bytes := asciiBytes "el" }

/-- C1 witness: a concrete truncated read on the fixture message. -/
theorem c1_witness :
    get_attachment_bytes mmW 0 none 1 2 = .ok chunkW ∧
    (chunkW.next_offset_bytes = chunkW.offset_bytes + chunkW.returned_bytes ∧
      (chunkW.done = true ↔ (chunkW.size_bytes : Int) ≤ chunkW.next_offset_bytes) ∧
      (chunkW.truncated = true ↔
        (chunkW.returned_bytes : Int) <
          (chunkW.size_bytes : Int) - chunkW.offset_bytes)) :=
  ⟨by decide, c1_chunk_pagination mmW 0 none 1 2 chunkW (by decide)⟩

/-! ### Claim C2 -/

/-- C2 counterexample: a negative offset raises the `ValueError` whose message
is `"offset_bytes must be >= 0"` — not the "offset out of range" error the
claim names (only an offset greater than the size raises that one). -/
theorem c2_counterexample :
    get_attachment_bytes mmW 0 none (-1) 10 = .error .negativeOffset ∧
    AttachmentError.negativeOffset.message = "offset_bytes must be >= 0" ∧
    ¬ mentionsOutOfRange AttachmentError.negativeOffset ∧
    get_attachment_bytes mmW 0 none 6 10 = .error (.offsetOutOfRange 6 5) ∧
    mentionsOutOfRange (.offsetOutOfRange 6 5) :=
  ⟨by decide, by decide, by decide, by decide, by decide⟩

/-- C2 (amended): on a message where the selector succeeds (witnessed by a
successful call at offset 0, whose chunk fixes the decoded size), a negative
`offset_bytes` raises the "must be >= 0" validation error, an offset greater
than the size raises the "offset out of range" error, and an offset equal to
the size is valid and returns zero bytes, an empty slice and `done = true`. -/
theorem c2_offset_validation (msg : MsgPart) (idx : Int) (fn : Option String)
    (mx0 mx off : Int) (c0 : AttachmentChunk)
    (hsel : get_attachment_bytes msg idx fn 0 mx0 = .ok c0) :
    (off < 0 → get_attachment_bytes msg idx fn off mx = .error .negativeOffset) ∧
    ((c0.size_bytes : Int) < off →
      get_attachment_bytes msg idx fn off mx =
        .error (.offsetOutOfRange off c0.size_bytes)) ∧
    (off = (c0.size_bytes : Int) →
      ∃ c, get_attachment_bytes msg idx fn off mx = .ok c ∧
        c.returned_bytes = 0 ∧ c.content_bytes = [] ∧ c.done = true) := by
  rw [get_attachment_bytes_eq] at hsel
  rw [get_attachment_bytes_eq]
  cases hs : selectAttachment msg idx fn with
  | error e => rw [hs] at hsel; cases hsel
  | ok sel =>
    rw [hs] at hsel
    obtain ⟨-, -, -, hsize, -, -, -, -, -, -⟩ :=
      chunkFromPart_ok sel.1 sel.2 0 mx0 c0 hsel
    dsimp only
    refine ⟨?_, ?_, ?_⟩
    · intro hneg
      simp only [chunkFromPart]
      rw [if_pos hneg]
    · intro hgt
      simp only [chunkFromPart]
      rw [if_neg (by omega), if_pos (by omega)]
      rw [hsize]
    · intro heq
      simp only [chunkFromPart]
      have hL : off.toNat = sel.1.payloadOrEmpty.length := by omega
      rw [if_neg (by omega), if_neg (by omega)]
      refine ⟨_, rfl, ?_, ?_, ?_⟩
      · dsimp only
        simp [hL, List.drop_length]
      · dsimp only
        simp [hL, List.drop_length]
      · dsimp only
        simp only [hL, List.drop_length, List.take_nil, ite_self, List.length_nil,
          decide_eq_true_eq]
        omega

/-- The chunk a full read at offset 0 returns on `mmW`. -/
def chunk0W : AttachmentChunk :=
  { index := 0, filename := some "a.txt", content_type := "text/plain",
    size_bytes := 5, offset_bytes := 0, returned_bytes := 5,
    truncated := false, next_offset_bytes := 5, done := true,
    content_bytes := asciiBytes "hello" }

/-- C2 witness: the three amended offset-validation cases at concrete
offsets on the fixture message (size 5). -/
theorem c2_witness :
    get_attachment_bytes mmW 0 none (-2) 10 = .error .negativeOffset ∧
    get_attachment_bytes mmW 0 none 7 10 = .error (.offsetOutOfRange 7 5) ∧
    (∃ c, get_attachment_bytes mmW 0 none 5 10 = .ok c ∧
      c.returned_bytes = 0 ∧ c.content_bytes = [] ∧ c.done = true) :=
  ⟨(c2_offset_validation mmW 0 none 10 10 (-2) chunk0W (by decide)).1 (by decide),
    (c2_offset_validation mmW 0 none 10 10 7 chunk0W (by decide)).2.1 (by decide),
    (c2_offset_validation mmW 0 none 10 10 5 chunk0W (by decide)).2.2 (by decide)⟩

/-! ### Claim C3 -/

/-- The enumerate-and-break filename search returns `none` when no part's
filename matches. -/
theorem findByFilename_eq_none (fn : String) (l : List MsgPart) (i : Nat)
    (h : ∀ p ∈ l, p.get_filename ≠ some fn) : findByFilename fn l i = none := by
  induction l generalizing i with
  | nil => rfl
  | cons p rest ih =>
    simp only [findByFilename]
    rw [if_neg (h p (by simp))]
    exact ih _ fun q hq => h q (by simp [hq])

/-- C3: `get_attachment_bytes` raises exactly one of three distinct selection
errors — "no attachments" when the message has no filename-bearing parts (for
every selector), the filename-not-found error (which is not an index error)
when a given filename matches no part, and the "index out of range" error,
whose message states the valid attachment count, when the index is outside
`[0, count)`. -/
theorem c3_selection_errors (msg : MsgPart) (fn : String) (idx off mx : Int) :
    (iter_attachment_parts msg = [] →
      ∀ fno : Option String,
        get_attachment_bytes msg idx fno off mx = .error .noAttachments) ∧
    (iter_attachment_parts msg ≠ [] →
      (∀ p ∈ iter_attachment_parts msg, p.get_filename ≠ some fn) →
      get_attachment_bytes msg idx (some fn) off mx =
        .error (.filenameNotFound fn)) ∧
    (iter_attachment_parts msg ≠ [] →
      (idx < 0 ∨ ((iter_attachment_parts msg).length : Int) ≤ idx) →
      get_attachment_bytes msg idx none off mx =
        .error (.indexOutOfRange idx (iter_attachment_parts msg).length)) ∧
    (∀ i : Int, ∀ n : Nat,
      AttachmentError.filenameNotFound fn ≠ .indexOutOfRange i n) ∧
    (∀ i : Int, ∀ n : Nat,
      (toString n).data <:+: (AttachmentError.indexOutOfRange i n).message.data) := by
  refine ⟨?_, ?_, ?_, fun i n h => AttachmentError.noConfusion h, fun i n => ?_⟩
  · intro he fno
    rw [get_attachment_bytes_eq]
    simp [selectAttachment, he]
  · intro hne hnomatch
    rw [get_attachment_bytes_eq]
    simp only [selectAttachment]
    rw [if_neg (by simpa using hne)]
    rw [findByFilename_eq_none fn _ 0 hnomatch]
  · intro hne hbad
    rw [get_attachment_bytes_eq]
    simp only [selectAttachment]
    rw [if_neg (by simpa using hne)]
    rw [dif_neg (by omega)]
  · exact
    ⟨("attachment_index out of range: " ++ toString i ++ " (have ").data,
      " attachments)".data,
      by simp [AttachmentError.message, String.data_append, List.append_assoc]⟩

/-- C3 witness: the three selection errors at concrete inputs — a message
without attachments, a filename absent from the fixture message, and an index
past its single attachment. -/
theorem c3_witness :
    get_attachment_bytes bodyW 0 none 0 10 = .error .noAttachments ∧
    get_attachment_bytes mmW 0 (some "b.txt") 0 10 =
      .error (.filenameNotFound "b.txt") ∧
    get_attachment_bytes mmW 5 none 0 10 = .error (.indexOutOfRange 5 1) :=
  ⟨(c3_selection_errors bodyW "b.txt" 0 0 10).1 rfl none,
    (c3_selection_errors mmW "b.txt" 0 0 10).2.1
      (fun h => absurd (congrArg List.length h) (by decide)) (by decide),
    (c3_selection_errors mmW "b.txt" 5 0 10).2.2.1
      (fun h => absurd (congrArg List.length h) (by decide)) (by decide)⟩

/-! ### Claim C4 -/

/-- C4: for every non-negative character cap `C` and candidate string of
length `L`, the truncation step returns the candidate unchanged when `L ≤ C`
or `C = 0`, and otherwise returns the first `C` characters followed by the
fixed marker `"\n\n[truncated]"`; `extract_bodies` applies this step
independently to the `text` and the `html` field. -/
theorem c4_body_truncation (C : Int) (_hC : 0 ≤ C) (s : String) :
    (((s.length : Int) ≤ C ∨ C = 0) → truncateBody C s = s) ∧
    ((0 < C ∧ (C : Int) < (s.length : Int)) →
      truncateBody C s = s.take C.toNat ++ "\n\n[truncated]") ∧
    (∀ msg : MsgPart, extract_bodies msg C =
      { text := truncateBody C (extract_bodies_raw msg).1
        html := truncateBody C (extract_bodies_raw msg).2 }) := by
  refine ⟨?_, ?_, fun msg => rfl⟩
  · intro hcase
    unfold truncateBody
    rw [if_neg]
    rintro ⟨h1, -, h3⟩
    rcases hcase with h | h
    · omega
    · omega
  · rintro ⟨h1, h2⟩
    have hs : s ≠ "" := by
      intro he
      rw [he] at h2
      simp only [String.length_empty, Nat.cast_zero] at h2
      omega
    unfold truncateBody
    rw [if_pos ⟨h1, hs, h2⟩]

/-- C4 witness: the cap-3 truncation of `"Hello"` and the unlimited (cap-0)
case. -/
theorem c4_witness :
    truncateBody 3 "Hello" = "Hello".take 3 ++ "\n\n[truncated]" ∧
    truncateBody 0 "Hello" = "Hello" :=
  ⟨(c4_body_truncation 3 (by decide) "Hello").2.1 (by decide),
    (c4_body_truncation 0 (by decide) "Hello").1 (Or.inr rfl)⟩

/-! ### Claim C5 -/

/-- A non-multipart message that is itself a named attachment: a single-part
message whose root carries a filename. -/
def m5W : MsgPart :=
  .leaf "application/pdf" (some "attachment") (some "r.pdf")
    (some (asciiBytes "hi")) (.error ())

/-- C5 counterexample: a non-multipart message does not always yield zero
attachments — a single-part message whose root part carries a filename yields
that very part. -/
theorem c5_counterexample :
    m5W.is_multipart = false ∧ iter_attachment_parts m5W = [m5W] ∧
    list_attachments m5W =
      [{ filename := some "r.pdf", content_type := "application/pdf",
         size_bytes := 2 }] :=
  ⟨rfl, rfl, by decide⟩

/-- C5 (amended): the attachment indexer enumerates exactly the parts whose
filename is truthy, as a sublist (hence in document/walk order) of the walk;
a non-multipart message yields no attachments unless its root part itself
carries a filename, in which case it yields exactly that root part. -/
theorem c5_attachment_enumeration (msg : MsgPart) :
    (∀ p : MsgPart, p ∈ iter_attachment_parts msg ↔
      p ∈ walk msg ∧ filenameTruthy p.get_filename = true) ∧
    (iter_attachment_parts msg).Sublist (walk msg) ∧
    (msg.is_multipart = false →
      iter_attachment_parts msg =
        if filenameTruthy msg.get_filename then [msg] else []) := by
  refine ⟨fun p => ?_, List.filter_sublist _, ?_⟩
  · simp [iter_attachment_parts, List.mem_filter]
  · intro hm
    cases msg with
    | leaf ct d f pl co =>
      simp only [iter_attachment_parts, walk, List.filter_cons, List.filter_nil]
    | multi ct d f ps => exact Bool.noConfusion hm

/-- C5 witness: on a single-part message without a filename the indexer
yields the empty list. -/
theorem c5_witness :
    bodyW.is_multipart = false ∧
    iter_attachment_parts bodyW =
      (if filenameTruthy bodyW.get_filename then [bodyW] else []) :=
  ⟨rfl, (c5_attachment_enumeration bodyW).2.2 rfl⟩

/-! ### Claim C6 -/

/-- The body-candidate eligibility test is the negation of the source's skip
condition. -/
theorem bodyEligible_false_iff (p : MsgPart) :
    bodyEligible p = false ↔
      ((strLower (p.get_content_disposition.getD "") = "attachment" ∨
        strLower (p.get_content_disposition.getD "") = "inline") ∧
        filenameTruthy p.get_filename = true) := by
  simp [bodyEligible]
  tauto

/-- Eligibility holds exactly when the skip condition fails. -/
theorem bodyEligible_true_iff (p : MsgPart) :
    bodyEligible p = true ↔
      ¬((strLower (p.get_content_disposition.getD "") = "attachment" ∨
        strLower (p.get_content_disposition.getD "") = "inline") ∧
        filenameTruthy p.get_filename = true) := by
  simp [bodyEligible]
  tauto

/-- Unfolding `bodyCandidates` over a cons cell. -/
theorem bodyCandidates_cons (ctype : String) (p : MsgPart) (rest : List MsgPart) :
    bodyCandidates ctype (p :: rest) =
      if bodyEligible p && decide (p.get_content_type = ctype) then
        p.contentOrFallback :: bodyCandidates ctype rest
      else bodyCandidates ctype rest := by
  simp only [bodyCandidates, List.filter_cons]
  split
  · simp
  · rfl

/-- One step of the "first nonempty candidate" view of an accumulator: folding
an eligible part into the accumulator commutes with consing its content onto
the candidate list. -/
theorem candidates_step (ct : String) (p : MsgPart) (rest : List MsgPart)
    (t : String) (he : bodyEligible p = true) :
    (if t = "" then firstNonempty (bodyCandidates ct (p :: rest)) else t) =
      (if (if p.get_content_type = ct ∧ t = "" then p.contentOrFallback else t) = ""
        then firstNonempty (bodyCandidates ct rest)
        else (if p.get_content_type = ct ∧ t = "" then p.contentOrFallback else t)) := by
  rw [bodyCandidates_cons, he]
  by_cases htp : p.get_content_type = ct
  · by_cases ht : t = ""
    · simp [htp, ht, firstNonempty]
    · simp [htp, ht]
  · simp [htp]

/-- The multipart traversal loop computes, for each of the two fields, the
first nonempty extracted content among the eligible candidate parts of the
corresponding content type (keeping an already-nonempty accumulator). -/
theorem bodiesLoop_eq (parts : List MsgPart) (t h : String) :
    bodiesLoop parts t h =
      ((if t = "" then firstNonempty (bodyCandidates "text/plain" parts) else t),
        (if h = "" then firstNonempty (bodyCandidates "text/html" parts) else h)) := by
  induction parts generalizing t h with
  | nil =>
    simp only [bodiesLoop, bodyCandidates, List.filter_nil, List.map_nil,
      firstNonempty]
    refine Prod.ext ?_ ?_ <;> dsimp only <;> split <;> simp_all
  | cons p rest ih =>
    simp only [bodiesLoop]
    by_cases hskip :
        (strLower (p.get_content_disposition.getD "") = "attachment" ∨
          strLower (p.get_content_disposition.getD "") = "inline") ∧
          filenameTruthy p.get_filename = true
    · rw [if_pos hskip, ih]
      have he : bodyEligible p = false := (bodyEligible_false_iff p).mpr hskip
      rw [bodyCandidates_cons, bodyCandidates_cons, he]
      simp
    · rw [if_neg hskip, ih]
      have he : bodyEligible p = true := (bodyEligible_true_iff p).mpr hskip
      rw [candidates_step "text/plain" p rest t he,
        candidates_step "text/html" p rest h he]
      by_cases hb :
          (if p.get_content_type = "text/plain" ∧ t = "" then p.contentOrFallback
            else t) ≠ "" ∧
          (if p.get_content_type = "text/html" ∧ h = "" then p.contentOrFallback
            else h) ≠ ""
      · rw [if_pos hb, if_neg hb.1, if_neg hb.2]
      · rw [if_neg hb]

/-- A `text/plain` part whose extracted content is the empty string. -/
def c6aW : MsgPart := .leaf "text/plain" none none (some []) (.ok "")

/-- A `text/plain` part whose extracted content is `"X"`. -/
def c6bW : MsgPart := .leaf "text/plain" none none (some (asciiBytes "X")) (.ok "X")

/-- A multipart message whose first `text/plain` part has empty content. -/
def mm6W : MsgPart := .multi "multipart/mixed" none none [c6aW, c6bW]

/-- C6 counterexample: the extractor does not assign the first `text/plain`
part to `text` — on a message whose first (eligible) `text/plain` part has
empty extracted content, the result is the second part's content `"X"`, not
the first part's `""` (the source tests Python truthiness `not text`, not
"not yet assigned"). -/
theorem c6_counterexample :
    mm6W.is_multipart = true ∧
    ((walk mm6W).filter fun p =>
      bodyEligible p && decide (p.get_content_type = "text/plain")) =
        [c6aW, c6bW] ∧
    c6aW.contentOrFallback = "" ∧ c6bW.contentOrFallback = "X" ∧
    (extract_bodies mm6W 0).text = "X" :=
  ⟨rfl, rfl, rfl, rfl, by decide⟩

/-- C6 (amended): on a multipart message the extractor walks the parts in
document order, skipping exactly the parts whose disposition is `attachment`
or `inline` and which carry a filename; `text` receives the first *nonempty*
extracted content among the eligible `text/plain` parts (eligible `text/plain`
parts with empty content are passed over) and `html` likewise for
`text/html`; a message with neither kind of candidate yields two empty
strings rather than an error. -/
theorem c6_multipart_bodies (msg : MsgPart) (cap : Int)
    (hm : msg.is_multipart = true) :
    extract_bodies msg cap =
      { text := truncateBody cap
          (firstNonempty (bodyCandidates "text/plain" (walk msg)))
        html := truncateBody cap
          (firstNonempty (bodyCandidates "text/html" (walk msg))) } ∧
    (bodyCandidates "text/plain" (walk msg) = [] →
      bodyCandidates "text/html" (walk msg) = [] →
      extract_bodies msg cap = { text := "", html := "" }) := by
  have hraw : extract_bodies_raw msg =
      (firstNonempty (bodyCandidates "text/plain" (walk msg)),
        firstNonempty (bodyCandidates "text/html" (walk msg))) := by
    unfold extract_bodies_raw
    rw [if_pos hm, bodiesLoop_eq]
    simp
  constructor
  · unfold extract_bodies
    rw [hraw]
  · intro h1 h2
    unfold extract_bodies
    rw [hraw, h1, h2]
    simp [firstNonempty, truncateBody]

/-- C6 witness: the characterization evaluated on the fixture multipart
message. -/
theorem c6_witness :
    mmW.is_multipart = true ∧
    extract_bodies mmW 0 =
      { text := truncateBody 0
          (firstNonempty (bodyCandidates "text/plain" (walk mmW)))
        html := truncateBody 0
          (firstNonempty (bodyCandidates "text/html" (walk mmW))) } :=
  ⟨rfl, (c6_multipart_bodies mmW 0 rfl).1⟩

/-! ### Claim C7 -/

/-- A chunking call at offset 0 always succeeds, and its metadata fields
describe the selected part. -/
theorem chunkFromPart_offset0 (p : MsgPart) (idx : Nat) (mx : Int) :
    ∃ c, chunkFromPart p idx 0 mx = .ok c ∧ c.index = (idx : Int) ∧
      c.filename = p.get_filename ∧ c.content_type = p.get_content_type ∧
      c.size_bytes = p.payloadOrEmpty.length := by
  unfold chunkFromPart
  rw [if_neg (by omega), if_neg (by omega)]
  exact ⟨_, rfl, rfl, rfl, rfl, rfl⟩

/-- C7: for every message and index `i` in `[0, count)`, the descriptor at
position `i` of `list_attachments` and the chunk `get_attachment_bytes`
returns for index `i` describe the same part — equal filename, content type
and size — and the chunk reports `index = i`; both use the identical
filename-bearing-parts traversal. -/
theorem c7_index_consistency (msg : MsgPart) (i : Nat) (mx : Int)
    (hi : i < (list_attachments msg).length) :
    ∃ c, get_attachment_bytes msg (i : Int) none 0 mx = .ok c ∧
      c.filename = ((list_attachments msg).get ⟨i, hi⟩).filename ∧
      c.content_type = ((list_attachments msg).get ⟨i, hi⟩).content_type ∧
      c.size_bytes = ((list_attachments msg).get ⟨i, hi⟩).size_bytes ∧
      c.index = (i : Int) := by
  have hlen : (list_attachments msg).length = (iter_attachment_parts msg).length := by
    simp [list_attachments]
  have hi' : i < (iter_attachment_parts msg).length := by omega
  have hdesc : (list_attachments msg).get ⟨i, hi⟩ =
      { filename := ((iter_attachment_parts msg).get ⟨i, hi'⟩).get_filename
        content_type := ((iter_attachment_parts msg).get ⟨i, hi'⟩).get_content_type
        size_bytes := ((iter_attachment_parts msg).get ⟨i, hi'⟩).payloadOrEmpty.length } := by
    simp [list_attachments, List.get_eq_getElem, List.getElem_map]
  have hsel : selectAttachment msg (i : Int) none =
      .ok ((iter_attachment_parts msg).get ⟨i, hi'⟩, i) := by
    unfold selectAttachment
    rw [if_neg (by
      intro hemp
      rw [List.isEmpty_iff] at hemp
      rw [hemp] at hi'
      simp at hi')]
    rw [dif_pos (by omega : 0 ≤ (i : Int) ∧ ((i : Int)).toNat < (iter_attachment_parts msg).length)]
    have hti : ((i : Int)).toNat = i := by omega
    simp only [Except.ok.injEq, Prod.mk.injEq]
    constructor
    · congr 1
    · exact hti
  rw [get_attachment_bytes_eq, hsel]
  dsimp only
  obtain ⟨c, hc, h1, h2, h3, h4⟩ :=
    chunkFromPart_offset0 ((iter_attachment_parts msg).get ⟨i, hi'⟩) i mx
  exact ⟨c, hc, by rw [h2, hdesc], by rw [h3, hdesc], by rw [h4, hdesc], h1⟩

/-- C7 witness: index 0 of the fixture message, compared against its
descriptor. -/
theorem c7_witness :
    ∃ c, get_attachment_bytes mmW 0 none 0 7 = .ok c ∧
      c.filename = some "a.txt" ∧ c.content_type = "text/plain" ∧
      c.size_bytes = 5 ∧ c.index = 0 := by
  obtain ⟨c, hc, h1, h2, h3, h4⟩ := c7_index_consistency mmW 0 7 (by decide)
  exact ⟨c, hc, h1.trans (by decide), h2.trans (by decide),
    h3.trans (by decide), h4⟩

/-! ### Claim C8 -/

/-- The bytes of a header whose single encoded word carries a charset tag
that names no registered codec. -/
def c8BadBytes : ByteStr := asciiBytes "=?x-unknown-charset?q?hi?="

/-- C8: the decoder is not exception-free.  Absent input yields `""`, textual
input is returned unchanged, and a known charset decodes — but a binary
header whose encoded word carries an unregistered charset tag makes
`chunk.decode(enc, errors="replace")` raise `LookupError`
(`errors="replace"` does not guard codec lookup), so the call propagates an
exception, contradicting the claim. -/
theorem c8_decoder_exception :
    _decode_mime_words (.bytes c8BadBytes) = .error () ∧
    _decode_mime_words .none = .ok "" ∧
    _decode_mime_words (.str "=?x-unknown-charset?q?hi?=") =
      .ok "=?x-unknown-charset?q?hi?=" ∧
    _decode_mime_words (.bytes (asciiBytes "=?utf-8?q?hi?=")) = .ok "hi" :=
  ⟨by decide, rfl, rfl, by decide⟩

/-! ### Claim C9 -/

/-- An address whose display name itself contains an `@`. -/
def a9W : EnvelopeAddress := ⟨.str "x@y", .str "a", .str "b"⟩

/-- C9 counterexample: with mailbox and host both present the output does not
always contain exactly one `@` — a display name containing `@` (or a mailbox
or host containing one) yields more, since the formatter concatenates the
fields verbatim. -/
theorem c9_counterexample :
    _format_address (some a9W) = .ok "x@y <a@b>" ∧
    countChar "x@y <a@b>" '@' = 2 :=
  ⟨by decide, by decide⟩

/-- The count `countChar` distributes over string append. -/
theorem countChar_append (x y : String) (c : Char) :
    countChar (x ++ y) c = countChar x c + countChar y c := by
  simp [countChar, String.data_append]

/-- C9 (amended): when mailbox and host are present and none of the decoded
mailbox, host and display name contains an `@`, the output contains exactly
one `@`, separating the local part from the host; with a display name the
output is `"Name <mailbox@host>"`, without one it is `mailbox@host`; when
mailbox and host are not both present the output is the display name alone
(hence the empty string when nothing is present), and an absent address
formats as the empty string. -/
theorem c9_format_address (a : EnvelopeAddress) (mb hs : String)
    (hmt : a.mailbox.truthy = true) (hht : a.host.truthy = true)
    (hmb : a.mailbox.pyStr = .ok mb) (hhs : a.host.pyStr = .ok hs)
    (hm0 : countChar mb '@' = 0) (hh0 : countChar hs '@' = 0)
    (hn0 : countChar (if a.name.truthy then a.name.pyStrReplace else "") '@' = 0) :
    (∃ out, _format_address (some a) = .ok out ∧ countChar out '@' = 1 ∧
      out = (if (if a.name.truthy then a.name.pyStrReplace else "") ≠ "" then
          (if a.name.truthy then a.name.pyStrReplace else "") ++ " <" ++
            (mb ++ "@" ++ hs) ++ ">"
        else mb ++ "@" ++ hs)) ∧
    (∀ b : EnvelopeAddress, ¬(b.mailbox.truthy = true ∧ b.host.truthy = true) →
      _format_address (some b) =
        .ok (if b.name.truthy then b.name.pyStrReplace else "")) ∧
    _format_address Option.none = .ok "" := by
  have hemail : mb ++ "@" ++ hs ≠ "" := by
    intro hcontra
    have := congrArg String.data hcontra
    simp [String.data_append] at this
  have hcount : countChar (mb ++ "@" ++ hs) '@' = 1 := by
    rw [countChar_append, countChar_append, hm0, hh0]
    rfl
  refine ⟨?_, ?_, rfl⟩
  · unfold _format_address
    dsimp only
    rw [if_pos ⟨hmt, hht⟩, hmb, hhs]
    dsimp only
    by_cases hdne : (if a.name.truthy then a.name.pyStrReplace else "") ≠ ""
    · rw [if_pos ⟨hdne, hemail⟩]
      refine ⟨_, rfl, ?_, by rw [if_pos hdne]⟩
      rw [countChar_append, countChar_append, countChar_append, hn0, hcount]
      rfl
    · rw [if_neg (fun hcon => hdne hcon.1), if_pos hemail]
      exact ⟨_, rfl, hcount, by rw [if_neg hdne]⟩
  · intro b hb
    unfold _format_address
    dsimp only
    rw [if_neg hb]
    dsimp only
    rw [if_neg (fun hcon => hcon.2 rfl), if_neg (fun hcon => hcon rfl)]

/-- C9 witness: a name, mailbox and host free of `@` compose to
`"Bob <alice@example.org>"` with exactly one `@`. -/
theorem c9_witness :
    ∃ out,
      _format_address (some ⟨.str "Bob", .str "alice", .str "example.org"⟩) =
        .ok out ∧ countChar out '@' = 1 := by
  obtain ⟨⟨out, h1, h2, -⟩, -, -⟩ :=
    c9_format_address ⟨.str "Bob", .str "alice", .str "example.org"⟩
      "alice" "example.org" (by decide) (by decide) (by decide) (by decide)
      (by decide) (by decide) (by decide)
  exact ⟨out, h1, h2⟩

/-! ### Claim C10 -/

/-- C10: on a non-multipart message whose root part is `text/plain`
(respectively `text/html`), the extractor returns that part's decoded content
as `text` (respectively `html`) for every content disposition and filename —
including `attachment` or `inline` dispositions with a filename — because the
attachment-skip rule is applied only in the multipart branch. -/
theorem c10_single_part_body (d : Option String) (fn : Option String)
    (pl : Option ByteStr) (co : Except Unit String) :
    extract_bodies (.leaf "text/plain" d fn pl co) 0 =
      { text := (MsgPart.leaf "text/plain" d fn pl co).contentOrFallback
        html := "" } ∧
    extract_bodies (.leaf "text/html" d fn pl co) 0 =
      { text := ""
        html := (MsgPart.leaf "text/html" d fn pl co).contentOrFallback } := by
  constructor <;>
  · unfold extract_bodies extract_bodies_raw
    simp [MsgPart.is_multipart, MsgPart.get_content_type, truncateBody]

end Imap
